import Mathlib

/-!
# Verification of the Linera-Arcade aggregation backend

Shallow embedding of the backend storage/aggregation layer of the
Linera-Arcade repository:

* `src/backend/src/db/memory.ts` — the in-memory database actually wired to
  the HTTP routes (players map, append-only scores list, running stats
  counters, leaderboard / rank / high-score / stats queries);
* `src/backend/src/routes/api.ts` — the Express route layer (zod input
  validation, `requireApiKey` middleware, handlers for register,
  submit-score and the read endpoints);
* the PostgreSQL player repository (`createPlayer` with
  `ON CONFLICT ... DO UPDATE` followed by an unconditional stats bump),
  modelled separately as `pgCreatePlayer`.

Conventions of the embedding:

* JS numbers holding scores / XP are modelled as `Nat`: the zod schemas
  (`z.number().int().min(0)`) only admit non-negative integers on every
  write path, and the seed data is non-negative as well.  `bonus_data`
  (no `.min(0)` in the schema) is modelled as `Option Int`.
* `Date` timestamps are modelled as `Nat` clock values passed explicitly
  to each state-changing operation (`now`).
* The JS `Map` preserves insertion order and `set` on an existing key
  updates in place; it is modelled as an association list in insertion
  order with unique keys.
* `Array.prototype.sort` is stable (ECMAScript 2019); it is modelled by
  the stable `List.insertionSort` (any two stable sorts under the same
  total preorder agree).
* `String.prototype.toLowerCase` is modelled character-wise
  (`jsToLower`), which agrees with JS on the ASCII wallet addresses the
  system uses.
* `Math.floor(Math.sqrt(xp / 100))` on a non-negative integer `xp` equals
  the integer square root of `xp / 100` (integer division): for an
  integer `k`, `k ≤ √(xp/100) ↔ k² ≤ xp/100 ↔ k² ≤ ⌊xp/100⌋`.  It is
  modelled by the structurally recursive `isqrt`, proved equal to
  `Nat.sqrt` in `isqrt_eq_sqrt`.
-/

namespace Arcade

/-- Character-wise lower-casing, modelling `String.prototype.toLowerCase`
on the ASCII identifiers used as wallet addresses. -/
def jsToLower (s : String) : String := ⟨s.data.map Char.toLower⟩

/-- Models the JS idiom `x || null` on an optional number: `0` is falsy,
so a present `0` collapses to `null`. -/
def jsOrNullInt : Option Int → Option Int
  | some v => if v = 0 then none else some v
  | none => none

/-- Models the JS idiom `x || null` on an optional string: the empty
string is falsy and collapses to `null`. -/
def jsOrNullStr : Option String → Option String
  | some s => if s = "" then none else some s
  | none => none

/-- Largest `j ≤ k` with `j * j ≤ n` (there is always one, since
`0 * 0 ≤ n`). Structural recursion so that the kernel can evaluate it. -/
def isqrtAux (n : Nat) : Nat → Nat
  | 0 => 0
  | k + 1 => if (k + 1) * (k + 1) ≤ n then k + 1 else isqrtAux n k

/-- Integer square root by bounded descent; agrees with `Nat.sqrt`
(`isqrt_eq_sqrt`). -/
def isqrt (n : Nat) : Nat := isqrtAux n n

/-- `level = Math.floor(Math.sqrt(total_xp / 100)) + 1`, the level formula
used by `memoryDb.updatePlayerXP` (src/backend/src/db/memory.ts:92) and,
via `GREATEST(1, FLOOR(POWER((total_xp+$2)/100.0, 0.5))::integer + 1)`,
by the PostgreSQL `updatePlayerXP`. -/
def levelOf (xp : Nat) : Nat := isqrt (xp / 100) + 1

/-- A row of the `players` store (interface `Player` in memory.ts). -/
structure Player where
  id : Nat
  wallet_address : String
  username : String
  total_xp : Nat
  level : Nat
  games_played : Nat
  chain_id : Option String
  registered_at : Nat
  updated_at : Nat
deriving Repr, DecidableEq

/-- A row of the `scores` store (interface `Score` in memory.ts). -/
structure Score where
  id : Nat
  player_wallet : String
  game_type : String
  score : Nat
  xp_earned : Nat
  bonus_data : Option Int
  chain_id : Option String
  submitted_at : Nat
deriving Repr, DecidableEq

/-- The module-level mutable state of memory.ts: the `players` map (in
insertion order), the `scores` array, the id counters and the `stats`
record. -/
structure DbState where
  players : List Player
  scores : List Score
  nextPlayerId : Nat
  nextScoreId : Nat
  total_players : Nat
  total_games_played : Nat
  total_xp_earned : Nat
deriving Repr, DecidableEq

/-- Fresh module state: empty stores, id counters at 1, zero stats. -/
def DbState.init : DbState :=
  { players := [], scores := [], nextPlayerId := 1, nextScoreId := 1,
    total_players := 0, total_games_played := 0, total_xp_earned := 0 }

/-- `players.get(w)` on the insertion-ordered association of players. -/
def findPlayer (players : List Player) (w : String) : Option Player :=
  players.find? (fun p => p.wallet_address == w)

/-- Input of `memoryDb.createPlayer`. -/
structure RegisterInput where
  wallet_address : String
  username : String
  chain_id : Option String
deriving Repr, DecidableEq

/-- `memoryDb.createPlayer` (memory.ts:49-76): lower-case the wallet; if a
player exists, overwrite `username` and `updated_at` only; otherwise
insert a fresh record with zero counters, level 1, the next id, and bump
`stats.total_players`. -/
def DbState.createPlayer (st : DbState) (input : RegisterInput) (now : Nat) :
    Player × DbState :=
  let w := jsToLower input.wallet_address
  match findPlayer st.players w with
  | some existing =>
    let updated := { existing with username := input.username, updated_at := now }
    (updated,
      { st with players := st.players.map (fun p =>
          if p.wallet_address == w then updated else p) })
  | none =>
    let player : Player :=
      { id := st.nextPlayerId, wallet_address := w, username := input.username,
        total_xp := 0, level := 1, games_played := 0,
        chain_id := jsOrNullStr input.chain_id,
        registered_at := now, updated_at := now }
    (player,
      { st with players := st.players ++ [player],
                nextPlayerId := st.nextPlayerId + 1,
                total_players := st.total_players + 1 })

/-- `memoryDb.updatePlayerXP` (memory.ts:86-96): `null` when the wallet is
unknown; otherwise add the XP, bump `games_played`, recompute `level`
from the new total, and stamp `updated_at`. -/
def DbState.updatePlayerXP (st : DbState) (wallet : String) (xpEarned : Nat)
    (now : Nat) : Option Player × DbState :=
  let w := jsToLower wallet
  match findPlayer st.players w with
  | none => (none, st)
  | some player =>
    let updated := { player with
      total_xp := player.total_xp + xpEarned,
      games_played := player.games_played + 1,
      level := levelOf (player.total_xp + xpEarned),
      updated_at := now }
    (some updated,
      { st with players := st.players.map (fun p =>
          if p.wallet_address == w then updated else p) })

/-- The sort comparator `(a, b) => b.total_xp - a.total_xp`: `a` may stay
before `b` exactly when `b.total_xp ≤ a.total_xp`. -/
def xpOrder (a b : Player) : Prop := b.total_xp ≤ a.total_xp

instance : DecidableRel xpOrder := fun a b => Nat.decLe b.total_xp a.total_xp

instance : IsTotal Player xpOrder := ⟨fun a b => Nat.le_total b.total_xp a.total_xp⟩

instance : IsTrans Player xpOrder :=
  ⟨fun _ _ _ h1 h2 => Nat.le_trans h2 h1⟩

/-- `Array.from(players.values()).sort((a, b) => b.total_xp - a.total_xp)`:
a stable descending sort of the insertion-ordered players.
`Array.prototype.sort` with a comparator is stable (ECMAScript 2019), and
any two stable sorts under the same total preorder coincide, so the
stable `List.insertionSort` is an exact model. -/
def DbState.sortedPlayers (st : DbState) : List Player :=
  List.insertionSort xpOrder st.players

/-- A leaderboard row: the player together with its 1-indexed rank. -/
structure RankedPlayer where
  player : Player
  rank : Nat
deriving Repr, DecidableEq

/-- `memoryDb.getLeaderboard` (memory.ts:98-104): sort by XP descending,
take `limit`, attach ranks `i + 1`. -/
def DbState.getLeaderboard (st : DbState) (limit : Nat) : List RankedPlayer :=
  ((st.sortedPlayers.take limit).enum).map (fun ip => ⟨ip.2, ip.1 + 1⟩)

/-- `memoryDb.getPlayerRank` (memory.ts:106-112): position of the wallet in
the same descending sort, 1-indexed; `null` when absent. -/
def DbState.getPlayerRank (st : DbState) (wallet : String) : Option Nat :=
  match st.sortedPlayers.findIdx? (fun p => p.wallet_address == jsToLower wallet) with
  | some i => some (i + 1)
  | none => none

/-- Input of `memoryDb.createScore`. -/
structure ScoreInput where
  player_wallet : String
  game_type : String
  score : Nat
  xp_earned : Nat
  bonus_data : Option Int
  chain_id : Option String
deriving Repr, DecidableEq

/-- `memoryDb.createScore` (memory.ts:115-139): unconditionally append a
new score row (wallet lower-cased, `bonus_data || null`,
`chain_id || null`), bump `stats.total_games_played` and add the XP to
`stats.total_xp_earned`. -/
def DbState.createScore (st : DbState) (input : ScoreInput) (now : Nat) :
    Score × DbState :=
  let s : Score :=
    { id := st.nextScoreId, player_wallet := jsToLower input.player_wallet,
      game_type := input.game_type, score := input.score,
      xp_earned := input.xp_earned,
      bonus_data := jsOrNullInt input.bonus_data,
      chain_id := jsOrNullStr input.chain_id,
      submitted_at := now }
  (s, { st with
        scores := st.scores ++ [s],
        nextScoreId := st.nextScoreId + 1,
        total_games_played := st.total_games_played + 1,
        total_xp_earned := st.total_xp_earned + input.xp_earned })

/-- `Map.set` semantics on an association list: overwrite in place when the
key exists, append otherwise. -/
def mapSet (m : List (String × Score)) (k : String) (v : Score) :
    List (String × Score) :=
  if m.any (fun kv => kv.1 == k) then
    m.map (fun kv => if kv.1 == k then (k, v) else kv)
  else m ++ [(k, v)]

/-- `Map.get` on the association list. -/
def mapGet (m : List (String × Score)) (k : String) : Option Score :=
  (m.find? (fun kv => kv.1 == k)).map Prod.snd

/-- The body of the first loop of `memoryDb.getGameHighScores`
(memory.ts:173-180): skip other game types; keep the stored entry unless
the new score is strictly greater (`score.score > existing.score` — ties
keep the earlier entry). -/
def hsStep (gameType : String) (m : List (String × Score)) (s : Score) :
    List (String × Score) :=
  if s.game_type == gameType then
    match mapGet m s.player_wallet with
    | none => mapSet m s.player_wallet s
    | some existing =>
      if existing.score < s.score then mapSet m s.player_wallet s else m
  else m

/-- The first loop of `memoryDb.getGameHighScores` (memory.ts:170-180):
fold `hsStep` over the scores array, building the best score per
wallet. -/
def bestScoresFold (gameType : String) (scores : List Score) :
    List (String × Score) :=
  scores.foldl (hsStep gameType) []

/-- A per-game high-score row as returned by `getGameHighScores`. -/
structure HighScoreEntry where
  player_wallet : String
  username : String
  score : Nat
  xp_earned : Nat
  rank : Nat
  submitted_at : Nat
deriving Repr, DecidableEq

/-- The comparator `(a, b) => b.score - a.score` on scores. -/
def scoreOrder (a b : Score) : Prop := b.score ≤ a.score

instance : DecidableRel scoreOrder := fun a b => Nat.decLe b.score a.score

instance : IsTotal Score scoreOrder := ⟨fun a b => Nat.le_total b.score a.score⟩

instance : IsTrans Score scoreOrder :=
  ⟨fun _ _ _ h1 h2 => Nat.le_trans h2 h1⟩

/-- The values of the per-wallet best-score map, sorted descending by
score (`Array.from(bestScores.values()).sort((a, b) => b.score -
a.score)`, memory.ts:182-183; stable sort, modelled as in
`sortedPlayers`). -/
def DbState.hsSorted (st : DbState) (gameType : String) : List Score :=
  List.insertionSort scoreOrder
    ((bestScoresFold gameType st.scores).map Prod.snd)

/-- The row shape built by `getGameHighScores`'s final `.map`
(memory.ts:185-192): the score's fields, the owner's username (or
`"Unknown"`), and the post-deduplication rank. -/
def mkHsEntry (st : DbState) (s : Score) (rank : Nat) : HighScoreEntry :=
  { player_wallet := s.player_wallet,
    username := ((findPlayer st.players s.player_wallet).map
      (fun p => p.username)).getD "Unknown",
    score := s.score, xp_earned := s.xp_earned,
    rank := rank, submitted_at := s.submitted_at }

/-- `memoryDb.getGameHighScores` (memory.ts:162-193): best score per
player, sorted descending by score, truncated to `limit`, re-ranked
`i + 1`. -/
def DbState.getGameHighScores (st : DbState) (gameType : String)
    (limit : Nat) : List HighScoreEntry :=
  ((st.hsSorted gameType).take limit).enum.map (fun ip =>
    mkHsEntry st ip.2 (ip.1 + 1))

/-- The record returned by `memoryDb.getGlobalStats`. -/
structure GlobalStats where
  totalPlayers : Nat
  totalGamesPlayed : Nat
  totalXpEarned : Nat
  topXp : Nat
  highestLevel : Nat
deriving Repr, DecidableEq

/-- `memoryDb.getGlobalStats` (memory.ts:195-212): `players.size`, the two
running counters, and the top-sorted player's XP / level (0 / 1 when
there are no players). -/
def DbState.getGlobalStats (st : DbState) : GlobalStats :=
  let top := st.sortedPlayers.head?
  { totalPlayers := st.players.length,
    totalGamesPlayed := st.total_games_played,
    totalXpEarned := st.total_xp_earned,
    topXp := ((top.map (fun p => p.total_xp)).getD 0),
    highestLevel := ((top.map (fun p => p.level)).getD 1) }

/-! ## Route layer (src/backend/src/routes/api.ts) -/

/-- Process environment relevant to the routes. -/
structure Env where
  nodeEnv : String
  apiSecretKey : Option String
deriving Repr, DecidableEq

/-- `requireApiKey` (api.ts:35-48): in development the check is skipped
entirely; otherwise the request passes only when a secret is configured,
non-empty (`!expectedKey` is true for the empty string), and the
`x-api-key` header equals it exactly. -/
def requireApiKey (env : Env) (apiKey : Option String) : Bool :=
  if env.nodeEnv == "development" then true
  else
    match env.apiSecretKey with
    | none => false
    | some k => if k == "" then false else apiKey == some k

/-- The `game_type` enumeration of `SubmitScoreSchema` (api.ts:24). -/
def gameTypes : List String :=
  ["SPEED_CLICKER", "MEMORY_MATRIX", "REACTION_STRIKE", "MATH_BLITZ",
   "SNAKE_SPRINT", "AIM_TRAINER", "COLOR_RUSH", "TYPING_BLITZ"]

/-- The username charset `[a-zA-Z0-9_-]` of `RegisterPlayerSchema`. -/
def validUsernameChar (c : Char) : Bool :=
  (('a' ≤ c && c ≤ 'z') || ('A' ≤ c && c ≤ 'Z') ||
   ('0' ≤ c && c ≤ '9') || c == '_' || c == '-')

/-- A `POST /api/players` request body plus its `x-api-key` header. -/
structure RegisterRequest where
  apiKey : Option String
  wallet_address : String
  username : String
  chain_id : Option String
deriving Repr, DecidableEq

/-- `RegisterPlayerSchema` (api.ts:16-20): wallet length 10–66, username
length 3–20 over the restricted charset. -/
def validRegister (r : RegisterRequest) : Bool :=
  decide (10 ≤ r.wallet_address.length) && decide (r.wallet_address.length ≤ 66) &&
  decide (3 ≤ r.username.length) && decide (r.username.length ≤ 20) &&
  r.username.data.all validUsernameChar

/-- A `POST /api/scores` request body plus its `x-api-key` header.  The
zod schema constrains `score` / `xp_earned` to non-negative integers, so
they are carried as `Nat`; `bonus_data` is an arbitrary integer. -/
structure ScoreRequest where
  apiKey : Option String
  wallet_address : String
  game_type : String
  score : Nat
  xp_earned : Nat
  bonus_data : Option Int
  chain_id : Option String
deriving Repr, DecidableEq

/-- `SubmitScoreSchema` (api.ts:22-29): wallet length 10–66 and a known
game type (the numeric bounds are carried by the `Nat` fields). -/
def validScoreReq (r : ScoreRequest) : Bool :=
  decide (10 ≤ r.wallet_address.length) && decide (r.wallet_address.length ≤ 66) &&
  gameTypes.contains r.game_type

/-- HTTP statuses the modelled handlers produce. -/
inductive ApiStatus where
  | ok200
  | created201
  | badRequest400
  | unauthorized401
  | notFound404
deriving Repr, DecidableEq

/-- `router.post('/players')` (api.ts:95-107): `requireApiKey`, zod
validation, then `memoryDb.createPlayer`, answering 201. -/
def postPlayers (env : Env) (st : DbState) (req : RegisterRequest)
    (now : Nat) : ApiStatus × DbState :=
  if !requireApiKey env req.apiKey then (ApiStatus.unauthorized401, st)
  else if !validRegister req then (ApiStatus.badRequest400, st)
  else
    let r := st.createPlayer
      ⟨req.wallet_address, req.username, req.chain_id⟩ now
    (ApiStatus.created201, r.2)

/-- `router.post('/scores')` (api.ts:147-169): `requireApiKey`, zod
validation, then `memoryDb.createScore` followed by
`memoryDb.updatePlayerXP` — whose `null` result for an unknown wallet is
ignored — answering 201 with the created score. -/
def postScores (env : Env) (st : DbState) (req : ScoreRequest)
    (now : Nat) : ApiStatus × Option Score × DbState :=
  if !requireApiKey env req.apiKey then (ApiStatus.unauthorized401, none, st)
  else if !validScoreReq req then (ApiStatus.badRequest400, none, st)
  else
    let r1 := st.createScore
      ⟨req.wallet_address, req.game_type, req.score, req.xp_earned,
       req.bonus_data, req.chain_id⟩ now
    let r2 := r1.2.updatePlayerXP req.wallet_address req.xp_earned now
    (ApiStatus.created201, some r1.1, r2.2)

/-- The camelCase player snapshot returned by `GET /api/players/:wallet`. -/
structure PlayerView where
  walletAddress : String
  username : String
  totalXp : Nat
  level : Nat
  gamesPlayed : Nat
  rank : Nat
deriving Repr, DecidableEq

/-- `router.get('/players/:wallet')` (api.ts:72-93): look the player up and
answer a camelCase snapshot whose `rank` field is the literal `0`.  The
`x-api-key` header is accepted but the handler has no `requireApiKey`
middleware, so the argument is unused. -/
def getPlayerRoute (st : DbState) (wallet : String)
    (apiKey : Option String) : ApiStatus × Option PlayerView :=
  match findPlayer st.players (jsToLower wallet) with
  | none => (ApiStatus.notFound404, none)
  | some p =>
    (ApiStatus.ok200, some
      { walletAddress := p.wallet_address, username := p.username,
        totalXp := p.total_xp, level := p.level,
        gamesPlayed := p.games_played, rank := 0 })

/-- `router.get('/leaderboard')` (api.ts:113-131): clamp the limit with
`Math.min(parseInt(...) || 100, 500)` and serve `memoryDb.getLeaderboard`.
No `requireApiKey` middleware, so the header argument is unused. -/
def getLeaderboardRoute (st : DbState) (limitQ : Option Nat)
    (apiKey : Option String) : List RankedPlayer :=
  st.getLeaderboard (min (limitQ.getD 100) 500)

/-! ## The PostgreSQL player repository -/

/-- State touched by the PostgreSQL `createPlayer`: the `players` table (in
key order of insertion) and the `total_players` row of the `stats`
table. -/
structure PgState where
  players : List Player
  total_players : Nat
deriving Repr, DecidableEq

/-- `createPlayer` of the PostgreSQL player repository
(src/unnamed/part_000:33-50): `INSERT ... ON CONFLICT (wallet_address) DO
UPDATE SET username = EXCLUDED.username, updated_at = NOW()` followed —
unconditionally, conflict or not — by `UPDATE stats SET value = value + 1
WHERE key = 'total_players'`. -/
def pgCreatePlayer (st : PgState) (input : RegisterInput) (nextId now : Nat) :
    Player × PgState :=
  let w := jsToLower input.wallet_address
  match findPlayer st.players w with
  | some existing =>
    let updated := { existing with username := input.username, updated_at := now }
    (updated,
      { players := st.players.map (fun p =>
          if p.wallet_address == w then updated else p),
        total_players := st.total_players + 1 })
  | none =>
    let player : Player :=
      { id := nextId, wallet_address := w, username := input.username,
        total_xp := 0, level := 1, games_played := 0,
        chain_id := jsOrNullStr input.chain_id,
        registered_at := now, updated_at := now }
    (player,
      { players := st.players ++ [player],
        total_players := st.total_players + 1 })

/-! ## Spec-side order for the leaderboard tie-break claim -/

/-- Code-point lexicographic strict order on strings, written out on the
character lists so the kernel can evaluate it; used only to state the
spec's "ties broken by ascending `identityKey`". -/
def strLtB : List Char → List Char → Bool
  | [], [] => false
  | [], _ :: _ => true
  | _ :: _, [] => false
  | a :: as, b :: bs => if a < b then true else if a == b then strLtB as bs else false

/-- The total order the spec prescribes for the global leaderboard:
`totalXp` descending, ties broken by ascending `identityKey`. -/
def specTieOrder (a b : Player) : Bool :=
  (decide (b.total_xp < a.total_xp)) ||
  (a.total_xp == b.total_xp && strLtB a.wallet_address.data b.wallet_address.data)

/-! ## Concrete states used by witnesses and counterexamples -/

/-- A production-mode environment with the secret `"k"` configured. -/
def envProd : Env := ⟨"production", some "k"⟩

/-- A development-mode environment (with a secret configured, which the
middleware then never consults). -/
def envDev : Env := ⟨"development", some "secret"⟩

/-- State after registering `alice` on the fresh store. -/
def stAlice : DbState :=
  (DbState.init.createPlayer ⟨"0xA1CE000001", "alice", none⟩ 0).2

/-- The concrete-scenario score submission: `SPEED_CLICKER`, rawScore 20,
xpEarned 200, with the correct API key. -/
def reqAlice : ScoreRequest :=
  ⟨some "k", "0xA1CE000001", "SPEED_CLICKER", 20, 200, none, none⟩

/-- State after the concrete scenario: register `alice`, then submit the
score through the route. -/
def stAfter : DbState := (postScores envProd stAlice reqAlice 1).2.2

/-- `alice`'s directory record after the concrete scenario. -/
def pAlice : Player :=
  { id := 1, wallet_address := "0xa1ce000001", username := "alice",
    total_xp := 200, level := 2, games_played := 1, chain_id := none,
    registered_at := 0, updated_at := 1 }

/-- A submission for a wallet nobody ever registered. -/
def reqGhost : ScoreRequest :=
  ⟨some "k", "0xDEAD000001", "SPEED_CLICKER", 5, 10, none, none⟩

/-- Two registered players with equal XP (zero), inserted in descending
key order. -/
def stTie : DbState :=
  ((DbState.init.createPlayer ⟨"0xBBBBBBBBBB", "bob", none⟩ 0).2.createPlayer
    ⟨"0xAAAAAAAAAA", "alice", none⟩ 1).2

/-- `alice` submits scores 10, 50, 30 for `SPEED_CLICKER` at increasing
timestamps. -/
def stHs : DbState :=
  let s1 := stAlice.createScore ⟨"0xA1CE000001", "SPEED_CLICKER", 10, 10, none, none⟩ 1
  let s2 := s1.2.createScore ⟨"0xA1CE000001", "SPEED_CLICKER", 50, 10, none, none⟩ 2
  let s3 := s2.2.createScore ⟨"0xA1CE000001", "SPEED_CLICKER", 30, 10, none, none⟩ 3
  s3.2

/-- A register request carrying no `x-api-key` header. -/
def reqNoKey : RegisterRequest := ⟨none, "0xA1CE000001", "alice", none⟩

/-- The PostgreSQL repository state after registering the same wallet
twice (ids 1 and 2, clock 0 and 1). -/
def pgAfterTwo : PgState :=
  (pgCreatePlayer (pgCreatePlayer ⟨[], 0⟩ ⟨"0xA1CE000001", "alice", none⟩ 1 0).2
    ⟨"0xA1CE000001", "alicetwo", none⟩ 2 1).2

/-! ## Helper lemmas -/

/-- `isqrtAux n k` is the integer square root of `n` once `k` is at least
that root. -/
lemma isqrtAux_eq (n : Nat) : ∀ k, Nat.sqrt n ≤ k → isqrtAux n k = Nat.sqrt n := by
  intro k
  induction k with
  | zero =>
    intro h
    simp [isqrtAux]
    omega
  | succ k ih =>
    intro h
    simp only [isqrtAux]
    by_cases hle : (k + 1) * (k + 1) ≤ n
    · simp only [hle, if_true]
      have h1 : k + 1 ≤ Nat.sqrt n := Nat.le_sqrt.mpr hle
      omega
    · simp only [hle, if_false]
      apply ih
      have h2 : Nat.sqrt n ≠ k + 1 := by
        intro he
        apply hle
        have h3 := Nat.sqrt_le n
        rw [he] at h3
        exact h3
      omega

/-- The executable integer square root agrees with `Nat.sqrt`. -/
lemma isqrt_eq_sqrt (n : Nat) : isqrt n = Nat.sqrt n :=
  isqrtAux_eq n n (Nat.sqrt_le_self n)

/-- The level formula written with `Nat.sqrt`, i.e. exactly
`floor(sqrt(xp / 100)) + 1`. -/
lemma levelOf_eq (xp : Nat) : levelOf xp = Nat.sqrt (xp / 100) + 1 := by
  rw [levelOf, isqrt_eq_sqrt]

/-- Length of the leaderboard: `limit` capped by the player count. -/
lemma getLeaderboard_length (st : DbState) (limit : Nat) :
    (st.getLeaderboard limit).length = min limit st.players.length := by
  simp [DbState.getLeaderboard, DbState.sortedPlayers, List.enum_length,
    List.length_take, List.length_insertionSort]

/-- Sorting does not change the number of players. -/
lemma sortedPlayers_length (st : DbState) :
    st.sortedPlayers.length = st.players.length :=
  List.length_insertionSort xpOrder st.players

/-- The `i`-th leaderboard row is the `i`-th sorted player with rank
`i + 1`. -/
lemma getLeaderboard_getElem (st : DbState) (limit i : Nat)
    (h : i < (st.getLeaderboard limit).length) :
    ∃ h2 : i < st.sortedPlayers.length,
      (st.getLeaderboard limit)[i] = ⟨st.sortedPlayers[i], i + 1⟩ := by
  have hl : i < ((st.sortedPlayers.take limit).enum).length := by
    simpa [DbState.getLeaderboard] using h
  have ht : i < (st.sortedPlayers.take limit).length := by
    simpa [List.enum_length] using hl
  have h2 : i < st.sortedPlayers.length := by
    rw [List.length_take] at ht
    omega
  refine ⟨h2, ?_⟩
  show ((st.sortedPlayers.take limit).enum.map
    (fun ip => RankedPlayer.mk ip.2 (ip.1 + 1)))[i] = _
  rw [List.getElem_map, List.getElem_enum, List.getElem_take]

/-- The sorted player list is sorted by XP descending. -/
lemma sortedPlayers_sorted (st : DbState) :
    List.Sorted xpOrder st.sortedPlayers :=
  List.sorted_insertionSort xpOrder st.players

/-! ## Claim theorems -/

/-- C3: after every `updatePlayerXP`, the returned player's stored level
equals `floor(sqrt(totalXp / 100)) + 1` (as `Nat.sqrt (totalXp / 100) + 1`);
the write preserves the invariant that every stored level is
`levelOf totalXp`; and `level(0) = 1`, `level(99) = 1`, `level(100) = 2`,
`level(400) = 3`. -/
theorem claim_C3 (st : DbState) (wallet : String) (xp now : Nat) :
    (∀ p st2, st.updatePlayerXP wallet xp now = (some p, st2) →
      p.level = Nat.sqrt (p.total_xp / 100) + 1) ∧
    ((∀ q ∈ st.players, q.level = levelOf q.total_xp) →
      ∀ q ∈ (st.updatePlayerXP wallet xp now).2.players,
        q.level = levelOf q.total_xp) ∧
    levelOf 0 = 1 ∧ levelOf 99 = 1 ∧ levelOf 100 = 2 ∧ levelOf 400 = 3 := by
  refine ⟨?_, ?_, by decide, by decide, by decide, by decide⟩
  · intro p st2 h
    cases hf : findPlayer st.players (jsToLower wallet) with
    | none => simp [DbState.updatePlayerXP, hf] at h
    | some player =>
      simp only [DbState.updatePlayerXP, hf, Prod.mk.injEq,
        Option.some.injEq] at h
      rw [← h.1, levelOf_eq]
  · intro hinv q hq
    cases hf : findPlayer st.players (jsToLower wallet) with
    | none =>
      simp only [DbState.updatePlayerXP, hf] at hq
      exact hinv q hq
    | some player =>
      simp only [DbState.updatePlayerXP, hf, List.mem_map] at hq
      obtain ⟨q0, hq0, hq0e⟩ := hq
      by_cases hw : (q0.wallet_address == jsToLower wallet) = true
      · rw [if_pos hw] at hq0e
        rw [← hq0e]
      · rw [if_neg hw] at hq0e
        rw [← hq0e]
        exact hinv q0 hq0

/-- Witness for C3: `alice`'s record after the concrete 200-XP update, with
its level equal to `Nat.sqrt (200 / 100) + 1 = 2`. -/
theorem claim_C3_witness :
    stAlice.updatePlayerXP "0xA1CE000001" 200 1
      = (some pAlice, (stAlice.updatePlayerXP "0xA1CE000001" 200 1).2) ∧
    pAlice.level = Nat.sqrt (pAlice.total_xp / 100) + 1 :=
  ⟨by decide, (claim_C3 stAlice "0xA1CE000001" 200 1).1 pAlice
    (stAlice.updatePlayerXP "0xA1CE000001" 200 1).2 (by decide)⟩

/-- C7 counterexample: the concrete scenario (register `alice`, submit
`SPEED_CLICKER` with rawScore 20 and xpEarned 200) leaves `alice` at
level 2, not level 3 as the claim states: `floor(sqrt(200/100)) + 1 =
floor(1.41...) + 1 = 2`. -/
theorem claim_C7_cex :
    (findPlayer stAfter.players "0xa1ce000001").map (fun p => p.level) = some 2 ∧
    ¬ (findPlayer stAfter.players "0xa1ce000001").map (fun p => p.level)
        = some 3 := by
  refine ⟨by decide, by decide⟩

/-- C7 (amended): the concrete scenario leaves `alice` with
`totalXp = 200`, `level = 2`, `gamesPlayed = 1`, and increments
`globalStats().totalGamesPlayed` by 1 and `.totalXpEarned` by 200. -/
theorem claim_C7_amended :
    findPlayer stAfter.players "0xa1ce000001" = some pAlice ∧
    pAlice.total_xp = 200 ∧ pAlice.level = 2 ∧ pAlice.games_played = 1 ∧
    stAfter.getGlobalStats.totalGamesPlayed
      = stAlice.getGlobalStats.totalGamesPlayed + 1 ∧
    stAfter.getGlobalStats.totalXpEarned
      = stAlice.getGlobalStats.totalXpEarned + 200 := by
  refine ⟨by decide, by decide, by decide, by decide, by decide, by decide⟩

/-- C1 counterexample: on the empty store (nobody registered), a valid
authorized submission for wallet `0xDEAD000001` does NOT fail with
NotFound: the route answers 201, the ScoreRecord is appended, and both
counters are incremented. -/
theorem claim_C1_cex :
    (postScores envProd DbState.init reqGhost 0).1 = ApiStatus.created201 ∧
    ¬ (postScores envProd DbState.init reqGhost 0).1 = ApiStatus.notFound404 ∧
    (postScores envProd DbState.init reqGhost 0).2.2.scores.length = 1 ∧
    (postScores envProd DbState.init reqGhost 0).2.2.total_games_played = 1 ∧
    (postScores envProd DbState.init reqGhost 0).2.2.total_xp_earned = 10 := by
  refine ⟨by decide, by decide, by decide, by decide, by decide⟩

/-- C1 (amended): `POST /scores` for an identity with no prior
registration does not fail and is not a no-op: it answers 201, appends
the ScoreRecord, increments `totalGamesPlayed` and `totalXpEarned`, and
leaves the player directory unchanged (`updatePlayerXP` returns `null`,
which the route ignores). -/
theorem claim_C1_amended (env : Env) (st : DbState) (req : ScoreRequest)
    (now : Nat)
    (hkey : requireApiKey env req.apiKey = true)
    (hval : validScoreReq req = true)
    (hmiss : findPlayer st.players (jsToLower req.wallet_address) = none) :
    postScores env st req now =
      (ApiStatus.created201,
       some { id := st.nextScoreId,
              player_wallet := jsToLower req.wallet_address,
              game_type := req.game_type, score := req.score,
              xp_earned := req.xp_earned,
              bonus_data := jsOrNullInt req.bonus_data,
              chain_id := jsOrNullStr req.chain_id, submitted_at := now },
       { st with
         scores := st.scores ++
           [{ id := st.nextScoreId,
              player_wallet := jsToLower req.wallet_address,
              game_type := req.game_type, score := req.score,
              xp_earned := req.xp_earned,
              bonus_data := jsOrNullInt req.bonus_data,
              chain_id := jsOrNullStr req.chain_id, submitted_at := now }],
         nextScoreId := st.nextScoreId + 1,
         total_games_played := st.total_games_played + 1,
         total_xp_earned := st.total_xp_earned + req.xp_earned }) := by
  simp only [postScores, hkey, hval, Bool.not_true, Bool.false_eq_true,
    if_false, DbState.createScore, DbState.updatePlayerXP, hmiss]

/-- Witness for C1 (amended): the ghost submission on the empty store. -/
theorem claim_C1_amended_witness :
    requireApiKey envProd reqGhost.apiKey = true ∧
    validScoreReq reqGhost = true ∧
    findPlayer DbState.init.players (jsToLower reqGhost.wallet_address) = none ∧
    postScores envProd DbState.init reqGhost 0 =
      (ApiStatus.created201,
       some { id := DbState.init.nextScoreId,
              player_wallet := jsToLower reqGhost.wallet_address,
              game_type := reqGhost.game_type, score := reqGhost.score,
              xp_earned := reqGhost.xp_earned,
              bonus_data := jsOrNullInt reqGhost.bonus_data,
              chain_id := jsOrNullStr reqGhost.chain_id, submitted_at := 0 },
       { DbState.init with
         scores := DbState.init.scores ++
           [{ id := DbState.init.nextScoreId,
              player_wallet := jsToLower reqGhost.wallet_address,
              game_type := reqGhost.game_type, score := reqGhost.score,
              xp_earned := reqGhost.xp_earned,
              bonus_data := jsOrNullInt reqGhost.bonus_data,
              chain_id := jsOrNullStr reqGhost.chain_id, submitted_at := 0 }],
         nextScoreId := DbState.init.nextScoreId + 1,
         total_games_played := DbState.init.total_games_played + 1,
         total_xp_earned := DbState.init.total_xp_earned + reqGhost.xp_earned }) :=
  ⟨by decide, by decide, by decide,
    claim_C1_amended envProd DbState.init reqGhost 0 (by decide) (by decide) (by decide)⟩

/-- C9: a submission whose `bonus_data` is the integer 0 is stored with
`bonus_data = null` (`input.bonus_data || null` collapses falsy 0), hence
indistinguishable from an absent bonus, both in the stored record and in
the record the route returns to the caller. -/
theorem claim_C9 (st : DbState) (input : ScoreInput) (now : Nat)
    (h0 : input.bonus_data = some 0) :
    (st.createScore input now).1.bonus_data = none ∧
    (st.createScore input now).1
      = (st.createScore { input with bonus_data := none } now).1 ∧
    (∀ (env : Env) (req : ScoreRequest) (now2 : Nat) (s : Score),
      req.bonus_data = some 0 →
      (postScores env st req now2).2.1 = some s → s.bonus_data = none) := by
  refine ⟨?_, ?_, ?_⟩
  · simp [DbState.createScore, jsOrNullInt, h0]
  · simp [DbState.createScore, jsOrNullInt, h0]
  · intro env req now2 s hb hs
    unfold postScores at hs
    by_cases hk : requireApiKey env req.apiKey
    · by_cases hv : validScoreReq req
      · simp only [hk, hv, Bool.not_true, Bool.false_eq_true, if_false,
          Option.some.injEq] at hs
        rw [← hs]
        simp [DbState.createScore, jsOrNullInt, hb]
      · simp [hk, hv] at hs
    · simp [hk] at hs

/-- Witness for C9: a concrete submission with bonus 0 on the empty
store. -/
theorem claim_C9_witness :
    (DbState.init.createScore
      ⟨"0xDEAD000001", "SPEED_CLICKER", 5, 10, some 0, none⟩ 0).1.bonus_data
      = none :=
  (claim_C9 DbState.init ⟨"0xDEAD000001", "SPEED_CLICKER", 5, 10, some 0, none⟩ 0
    (by decide)).1

/-- C10: whenever `GET /players/:wallet` finds the player, the snapshot it
returns carries the literal `rank: 0`, regardless of the player's actual
leaderboard position. -/
theorem claim_C10 (st : DbState) (wallet : String) (apiKey : Option String)
    (v : PlayerView) (h : (getPlayerRoute st wallet apiKey).2 = some v) :
    v.rank = 0 := by
  unfold getPlayerRoute at h
  cases hf : findPlayer st.players (jsToLower wallet) with
  | none => rw [hf] at h; cases h
  | some p =>
    rw [hf] at h
    simp only [Option.some.injEq] at h
    rw [← h]

/-- Witness for C10: `alice` sits at rank 1 of the leaderboard after the
concrete scenario, yet her single-player snapshot reports rank 0. -/
theorem claim_C10_witness :
    (getPlayerRoute stAfter "0xA1CE000001" none).2 = some
      { walletAddress := "0xa1ce000001", username := "alice", totalXp := 200,
        level := 2, gamesPlayed := 1, rank := 0 } ∧
    stAfter.getPlayerRank "0xA1CE000001" = some 1 ∧
    ({ walletAddress := "0xa1ce000001", username := "alice", totalXp := 200,
       level := 2, gamesPlayed := 1, rank := 0 } : PlayerView).rank = 0 :=
  ⟨by decide, by decide,
    claim_C10 stAfter "0xA1CE000001" none _ (by decide)⟩

/-- C8 counterexample: in a development environment the credential check
is bypassed — a `POST /players` with NO `x-api-key` header succeeds with
201 and mutates the store, contradicting "absence of the credential
yields Unauthorized and no storage mutation occurs". -/
theorem claim_C8_cex :
    reqNoKey.apiKey = none ∧
    (postPlayers envDev DbState.init reqNoKey 0).1 = ApiStatus.created201 ∧
    ¬ (postPlayers envDev DbState.init reqNoKey 0).1 = ApiStatus.unauthorized401 ∧
    (postPlayers envDev DbState.init reqNoKey 0).2.players.length = 1 := by
  refine ⟨by decide, by decide, by decide, by decide⟩

/-- C8 (amended): outside development mode, a request to a write endpoint
whose credential does not match the configured secret (in particular an
absent credential, or no/empty configured secret) yields Unauthorized
with no storage mutation; the read endpoints take no credential at all
(their results do not depend on the header). -/
theorem claim_C8_amended (env : Env) (st : DbState) (preq : RegisterRequest)
    (sreq : ScoreRequest) (now : Nat) (wallet : String) (limitQ : Option Nat)
    (k k' : Option String)
    (hdev : env.nodeEnv ≠ "development")
    (hp : ∀ s, env.apiSecretKey = some s → preq.apiKey ≠ some s)
    (hs : ∀ s, env.apiSecretKey = some s → sreq.apiKey ≠ some s) :
    postPlayers env st preq now = (ApiStatus.unauthorized401, st) ∧
    postScores env st sreq now = (ApiStatus.unauthorized401, none, st) ∧
    getPlayerRoute st wallet k = getPlayerRoute st wallet k' ∧
    getLeaderboardRoute st limitQ k = getLeaderboardRoute st limitQ k' := by
  have hdev2 : (env.nodeEnv == "development") = false := by
    simp [hdev]
  have hkp : requireApiKey env preq.apiKey = false := by
    unfold requireApiKey
    rw [hdev2]
    simp only [Bool.false_eq_true, if_false]
    cases hsec : env.apiSecretKey with
    | none => rfl
    | some s =>
      by_cases hemp : (s == "") = true
      · simp [hemp]
      · simp only [hemp, Bool.false_eq_true, if_false]
        simpa using hp s hsec
  have hks : requireApiKey env sreq.apiKey = false := by
    unfold requireApiKey
    rw [hdev2]
    simp only [Bool.false_eq_true, if_false]
    cases hsec : env.apiSecretKey with
    | none => rfl
    | some s =>
      by_cases hemp : (s == "") = true
      · simp [hemp]
      · simp only [hemp, Bool.false_eq_true, if_false]
        simpa using hs s hsec
  refine ⟨?_, ?_, rfl, rfl⟩
  · simp [postPlayers, hkp]
  · simp [postScores, hks]

/-- Witness for C8 (amended): production environment with secret `"k"`,
requests carrying no key / a wrong key. -/
theorem claim_C8_amended_witness :
    postPlayers envProd stAlice reqNoKey 5 = (ApiStatus.unauthorized401, stAlice) ∧
    postScores envProd stAlice
      ⟨some "wrong", "0xA1CE000001", "SPEED_CLICKER", 1, 1, none, none⟩ 5
      = (ApiStatus.unauthorized401, none, stAlice) ∧
    getPlayerRoute stAlice "0xA1CE000001" (some "anything")
      = getPlayerRoute stAlice "0xA1CE000001" none ∧
    getLeaderboardRoute stAlice none (some "anything")
      = getLeaderboardRoute stAlice none none := by
  have h := claim_C8_amended envProd stAlice reqNoKey
    ⟨some "wrong", "0xA1CE000001", "SPEED_CLICKER", 1, 1, none, none⟩ 5
    "0xA1CE000001" none (some "anything") none
    (by decide)
    (fun s hsec => by
      cases hsec
      exact fun hc => Option.noConfusion hc)
    (fun s hsec => by
      cases hsec
      intro hc
      simp only [Option.some.injEq] at hc
      exact absurd hc (by decide))
  exact h

/-- C2 counterexample: two players with equal `totalXp` registered in
descending key order stay in registration order — the leaderboard is NOT
sorted by `(totalXp desc, identityKey asc)`: `0xbbbbbbbbbb` precedes
`0xaaaaaaaaaa` despite equal XP and `"0xaaaaaaaaaa" < "0xbbbbbbbbbb"`. -/
theorem claim_C2_cex :
    (stTie.getLeaderboard 2).map
      (fun row => (row.player.wallet_address, row.player.total_xp, row.rank))
      = [("0xbbbbbbbbbb", 0, 1), ("0xaaaaaaaaaa", 0, 2)] ∧
    strLtB "0xaaaaaaaaaa".data "0xbbbbbbbbbb".data = true ∧
    ¬ List.Pairwise (fun a b => specTieOrder a.player b.player = true)
        (stTie.getLeaderboard 2) := by
  refine ⟨by decide, by decide, by decide⟩

/-- C2 (amended): `globalLeaderboard(N)` has exactly `min(N, playerCount)`
rows, assigns ranks `1..min(N, playerCount)` contiguously with no gaps or
repeats, and is sorted by `totalXp` descending; ties are left in
registration (insertion) order by the stable sort, not re-ordered by
ascending `identityKey`. -/
theorem claim_C2_amended (st : DbState) (limit : Nat) :
    (st.getLeaderboard limit).length = min limit st.players.length ∧
    (∀ i (h : i < (st.getLeaderboard limit).length),
      ((st.getLeaderboard limit)[i]).rank = i + 1) ∧
    (∀ i j (hi : i < (st.getLeaderboard limit).length)
        (hj : j < (st.getLeaderboard limit).length), i ≤ j →
      ((st.getLeaderboard limit)[j]).player.total_xp
        ≤ ((st.getLeaderboard limit)[i]).player.total_xp) := by
  refine ⟨getLeaderboard_length st limit, ?_, ?_⟩
  · intro i h
    obtain ⟨h2, he⟩ := getLeaderboard_getElem st limit i h
    rw [he]
  · intro i j hi hj hij
    obtain ⟨hi2, hie⟩ := getLeaderboard_getElem st limit i hi
    obtain ⟨hj2, hje⟩ := getLeaderboard_getElem st limit j hj
    rw [hie, hje]
    rcases Nat.eq_or_lt_of_le hij with he | hlt
    · subst he
      exact Nat.le_refl _
    · have hp : ∀ (a b : Nat) (ha : a < st.sortedPlayers.length)
          (hb : b < st.sortedPlayers.length), a < b →
          xpOrder st.sortedPlayers[a] st.sortedPlayers[b] :=
        List.pairwise_iff_getElem.mp (sortedPlayers_sorted st)
      exact hp i j hi2 hj2 hlt

/-- Witness for C2 (amended): the tied two-player store, rows 0 and 1. -/
theorem claim_C2_amended_witness :
    ∃ h : 1 < (stTie.getLeaderboard 2).length,
      ((stTie.getLeaderboard 2)[1]).rank = 1 + 1 :=
  ⟨by decide, (claim_C2_amended stTie 2).2.1 1 (by decide)⟩

/-- C5: `getPlayerRank` and `getLeaderboard(playerCount)` agree on the same
total order: if `playerRank(w) = r` then the leaderboard's row `r - 1` is
the first row carrying wallet `w`, with rank exactly `r`; and a `null`
rank means no registered player has that wallet. -/
theorem claim_C5 (st : DbState) (w : String) :
    (∀ r, st.getPlayerRank w = some r →
      ∃ h2 : r - 1 < (st.getLeaderboard st.players.length).length,
        ((st.getLeaderboard st.players.length)[r - 1]).player.wallet_address
          = jsToLower w ∧
        ((st.getLeaderboard st.players.length)[r - 1]).rank = r ∧
        ∀ j (hj : j < r - 1)
            (hj2 : j < (st.getLeaderboard st.players.length).length),
          ((st.getLeaderboard st.players.length)[j]).player.wallet_address
            ≠ jsToLower w) ∧
    (st.getPlayerRank w = none →
      ∀ p ∈ st.players, p.wallet_address ≠ jsToLower w) := by
  constructor
  · intro r h
    unfold DbState.getPlayerRank at h
    cases hfi : st.sortedPlayers.findIdx?
        (fun p => p.wallet_address == jsToLower w) with
    | none => rw [hfi] at h; cases h
    | some i =>
      rw [hfi] at h
      simp only [Option.some.injEq] at h
      subst h
      rw [List.findIdx?_eq_some_iff_getElem] at hfi
      obtain ⟨hi, hp, hfirst⟩ := hfi
      have hips : st.sortedPlayers.length = st.players.length :=
        sortedPlayers_length st
      have hlen : (st.getLeaderboard st.players.length).length
          = st.players.length := by
        rw [getLeaderboard_length]
        omega
      have hr1 : i + 1 - 1 = i := by omega
      have hlb : i + 1 - 1 < (st.getLeaderboard st.players.length).length := by
        omega
      refine ⟨hlb, ?_, ?_, ?_⟩
      · obtain ⟨h2, he⟩ := getLeaderboard_getElem st st.players.length _ hlb
        rw [he]
        show st.sortedPlayers[i + 1 - 1].wallet_address = jsToLower w
        simp only [hr1]
        exact beq_iff_eq.mp hp
      · obtain ⟨h2, he⟩ := getLeaderboard_getElem st st.players.length _ hlb
        rw [he]
        show i + 1 - 1 + 1 = i + 1
        omega
      · intro j hj hj2
        obtain ⟨h2, he⟩ := getLeaderboard_getElem st st.players.length j hj2
        rw [he]
        intro hc
        have hne := hfirst j (by omega)
        exact hne (beq_iff_eq.mpr hc)
  · intro h p hmem
    unfold DbState.getPlayerRank at h
    cases hfi : st.sortedPlayers.findIdx?
        (fun q => q.wallet_address == jsToLower w) with
    | some i => rw [hfi] at h; cases h
    | none =>
      rw [List.findIdx?_eq_none_iff] at hfi
      have hmem2 : p ∈ st.sortedPlayers :=
        (List.mem_insertionSort xpOrder).mpr hmem
      have := hfi p hmem2
      intro hc
      rw [hc] at this
      simp at this

/-- Witness for C5: in the tied two-player store, `0xAAAAAAAAAA` has rank
2 and indeed first appears at leaderboard row 1 (0-indexed). -/
theorem claim_C5_witness :
    stTie.getPlayerRank "0xAAAAAAAAAA" = some 2 ∧
    (∃ h2 : 2 - 1 < (stTie.getLeaderboard stTie.players.length).length,
      ((stTie.getLeaderboard stTie.players.length)[2 - 1]).player.wallet_address
        = jsToLower "0xAAAAAAAAAA" ∧
      ((stTie.getLeaderboard stTie.players.length)[2 - 1]).rank = 2 ∧
      ∀ j (hj : j < 2 - 1)
          (hj2 : j < (stTie.getLeaderboard stTie.players.length).length),
        ((stTie.getLeaderboard stTie.players.length)[j]).player.wallet_address
          ≠ jsToLower "0xAAAAAAAAAA") :=
  ⟨by decide, (claim_C5 stTie "0xAAAAAAAAAA").1 2 (by decide)⟩

/-- Invariant of the best-score fold: `m` is the per-wallet best-score map
of the already processed scores `done`, with the earliest maximal record
kept per wallet. -/
def HSInv (G : String) (done : List Score) (m : List (String × Score)) : Prop :=
  (m.map Prod.fst).Nodup ∧
  (∀ kv ∈ m, kv.2.player_wallet = kv.1 ∧ kv.2.game_type = G ∧ kv.2 ∈ done ∧
    ∀ s ∈ done, s.game_type = G → s.player_wallet = kv.1 →
      s.score ≤ kv.2.score ∧
      (s.score = kv.2.score → kv.2.submitted_at ≤ s.submitted_at)) ∧
  (∀ s ∈ done, s.game_type = G → ∃ kv ∈ m, kv.1 = s.player_wallet)

lemma mapGet_eq_none_iff (m : List (String × Score)) (k : String) :
    mapGet m k = none ↔ ∀ kv ∈ m, kv.1 ≠ k := by
  unfold mapGet
  cases hfind : List.find? (fun kv => kv.1 == k) m with
  | none =>
    rw [List.find?_eq_none] at hfind
    refine iff_of_true rfl ?_
    intro kv hkv hc
    exact hfind kv hkv (beq_iff_eq.mpr hc)
  | some kv0 =>
    refine iff_of_false (fun hc => Option.noConfusion hc) ?_
    intro hall
    have hb0 := List.find?_some hfind
    have hb : (kv0.1 == k) = true := hb0
    exact hall kv0 (List.mem_of_find?_eq_some hfind) (beq_iff_eq.mp hb)

lemma mapGet_eq_some_elim (m : List (String × Score)) (k : String) (v : Score)
    (h : mapGet m k = some v) : ∃ kv ∈ m, kv.1 = k ∧ kv.2 = v := by
  unfold mapGet at h
  cases hfind : List.find? (fun kv => kv.1 == k) m with
  | none => rw [hfind] at h; cases h
  | some kv0 =>
    rw [hfind] at h
    have h2 : kv0.2 = v := Option.some.inj h
    have hb0 := List.find?_some hfind
    have hb : (kv0.1 == k) = true := hb0
    exact ⟨kv0, List.mem_of_find?_eq_some hfind, beq_iff_eq.mp hb, h2⟩

lemma mapSet_of_not_mem (m : List (String × Score)) (k : String) (v : Score)
    (h : ∀ kv ∈ m, kv.1 ≠ k) : mapSet m k v = m ++ [(k, v)] := by
  have hany : m.any (fun kv => kv.1 == k) = false := by
    rw [List.any_eq_false]
    intro kv hkv
    exact fun hc => h kv hkv (beq_iff_eq.mp hc)
  simp [mapSet, hany]

lemma mapSet_keys_replace (m : List (String × Score)) (k : String) (v : Score)
    (hany : m.any (fun kv => kv.1 == k) = true) :
    (mapSet m k v).map Prod.fst = m.map Prod.fst := by
  simp only [mapSet, hany, if_true, List.map_map]
  apply List.map_congr_left
  intro kv _
  by_cases hk : (kv.1 == k) = true
  · simp [Function.comp, hk, beq_iff_eq.mp hk]
  · simp [Function.comp, hk]

lemma mem_mapSet_replace (m : List (String × Score)) (k : String) (v : Score)
    (hany : m.any (fun kv => kv.1 == k) = true) :
    ∀ x ∈ mapSet m k v, x = (k, v) ∨ (x ∈ m ∧ x.1 ≠ k) := by
  intro x hx
  simp only [mapSet, hany, if_true, List.mem_map] at hx
  obtain ⟨kv, hkv, hfx⟩ := hx
  by_cases hk : (kv.1 == k) = true
  · rw [if_pos hk] at hfx
    exact Or.inl hfx.symm
  · rw [if_neg hk] at hfx
    refine Or.inr ⟨hfx ▸ hkv, ?_⟩
    rw [← hfx]
    simpa using hk

lemma mapSet_mem_replaced (m : List (String × Score)) (k : String) (v : Score)
    (kv0 : String × Score) (h0 : kv0 ∈ m) (hk0 : kv0.1 = k) :
    (k, v) ∈ mapSet m k v := by
  have hany : m.any (fun kv => kv.1 == k) = true := by
    simp only [List.any_eq_true]
    exact ⟨kv0, h0, beq_iff_eq.mpr hk0⟩
  simp only [mapSet, hany, if_true, List.mem_map]
  exact ⟨kv0, h0, by simp [beq_iff_eq.mpr hk0, hk0]⟩

lemma mapSet_key_surj (m : List (String × Score)) (k : String) (v : Score)
    (kv : String × Score) (h : kv ∈ m) :
    ∃ kv2 ∈ mapSet m k v, kv2.1 = kv.1 := by
  by_cases hany : m.any (fun kv => kv.1 == k) = true
  · simp only [mapSet, hany, if_true, List.mem_map]
    by_cases hk : (kv.1 == k) = true
    · exact ⟨(k, v), ⟨kv, h, by simp [hk]⟩, (beq_iff_eq.mp hk).symm⟩
    · exact ⟨kv, ⟨kv, h, by simp [hk]⟩, rfl⟩
  · have hany2 : m.any (fun kv => kv.1 == k) = false :=
      Bool.eq_false_iff.mpr hany
    simp only [mapSet, hany2, Bool.false_eq_true, if_false]
    exact ⟨kv, List.mem_append_left _ h, rfl⟩

lemma keys_nodup_key_inj (m : List (String × Score))
    (hnd : (m.map Prod.fst).Nodup) (kv kv2 : String × Score)
    (h1 : kv ∈ m) (h2 : kv2 ∈ m) (hk : kv.1 = kv2.1) : kv = kv2 := by
  obtain ⟨i, hi, hie⟩ := List.mem_iff_getElem.mp h1
  obtain ⟨j, hj, hje⟩ := List.mem_iff_getElem.mp h2
  have him : i < (m.map Prod.fst).length := by simpa using hi
  have hjm : j < (m.map Prod.fst).length := by simpa using hj
  have hkeq : (m.map Prod.fst)[i] = (m.map Prod.fst)[j] := by
    rw [List.getElem_map, List.getElem_map, hie, hje]
    exact hk
  have hij : i = j := (List.Nodup.getElem_inj_iff hnd).mp hkeq
  subst hij
  rw [← hie, ← hje]

lemma hsInv_step (G : String) (done : List Score)
    (m : List (String × Score)) (s : Score)
    (hinv : HSInv G done m)
    (hle : ∀ x ∈ done, x.submitted_at ≤ s.submitted_at) :
    HSInv G (done ++ [s]) (hsStep G m s) := by
  obtain ⟨hnd, hkv, hcomp⟩ := hinv
  by_cases hg : (s.game_type == G) = true
  · have hgeq : s.game_type = G := beq_iff_eq.mp hg
    cases hmg : mapGet m s.player_wallet with
    | none =>
      have hnok : ∀ kv ∈ m, kv.1 ≠ s.player_wallet :=
        (mapGet_eq_none_iff m s.player_wallet).mp hmg
      have hms : hsStep G m s = m ++ [(s.player_wallet, s)] := by
        simp only [hsStep, hg, if_true, hmg]
        exact mapSet_of_not_mem m s.player_wallet s hnok
      rw [hms]
      refine ⟨?_, ?_, ?_⟩
      · rw [List.map_append]
        refine List.Nodup.append hnd (by simp) ?_
        intro a ha hb
        simp only [List.map_cons, List.map_nil, List.mem_singleton] at hb
        simp only [List.mem_map] at ha
        obtain ⟨kv, hkvm, hfst⟩ := ha
        exact hnok kv hkvm (hfst.trans hb)
      · intro kv hkvm
        rcases List.mem_append.mp hkvm with hin | hone
        · obtain ⟨hw, hgt, hmem, hmax⟩ := hkv kv hin
          refine ⟨hw, hgt, List.mem_append_left _ hmem, ?_⟩
          intro t ht hgt2 hwt
          rcases List.mem_append.mp ht with htd | hts
          · exact hmax t htd hgt2 hwt
          · simp only [List.mem_singleton] at hts
            subst hts
            exact absurd hwt.symm (hnok kv hin)
        · simp only [List.mem_singleton] at hone
          subst hone
          refine ⟨rfl, hgeq, List.mem_append_right _ (by simp), ?_⟩
          intro t ht hgt2 hwt
          rcases List.mem_append.mp ht with htd | hts
          · obtain ⟨kv2, hkv2m, hkv2k⟩ := hcomp t htd hgt2
            exact absurd (hkv2k.trans hwt).symm (fun hc => hnok kv2 hkv2m hc.symm)
          · simp only [List.mem_singleton] at hts
            subst hts
            exact ⟨Nat.le_refl _, fun _ => Nat.le_refl _⟩
      · intro t ht hgt2
        rcases List.mem_append.mp ht with htd | hts
        · obtain ⟨kv2, hkv2m, hkv2k⟩ := hcomp t htd hgt2
          exact ⟨kv2, List.mem_append_left _ hkv2m, hkv2k⟩
        · simp only [List.mem_singleton] at hts
          subst hts
          exact ⟨(t.player_wallet, t), List.mem_append_right _ (by simp), rfl⟩
    | some v =>
      obtain ⟨kv0, hkv0m, hkv0k, hkv0v⟩ :=
        mapGet_eq_some_elim m s.player_wallet v hmg
      have hany : m.any (fun kv => kv.1 == s.player_wallet) = true := by
        simp only [List.any_eq_true]
        exact ⟨kv0, hkv0m, beq_iff_eq.mpr hkv0k⟩
      obtain ⟨hw0, hg0, hmem0, hmax0⟩ := hkv kv0 hkv0m
      by_cases hlt : v.score < s.score
      · have hms : hsStep G m s = mapSet m s.player_wallet s := by
          simp [hsStep, hg, hmg, hlt]
        rw [hms]
        refine ⟨?_, ?_, ?_⟩
        · rw [mapSet_keys_replace m s.player_wallet s hany]
          exact hnd
        · intro kv hkvm
          rcases mem_mapSet_replace m s.player_wallet s hany kv hkvm with
            hks | ⟨hin, hne⟩
          · subst hks
            refine ⟨rfl, hgeq, List.mem_append_right _ (by simp), ?_⟩
            intro t ht hgt2 hwt
            show t.score ≤ s.score ∧
              (t.score = s.score → s.submitted_at ≤ t.submitted_at)
            rcases List.mem_append.mp ht with htd | hts
            · have hmax := hmax0 t htd hgt2 (by rw [hwt]; exact hkv0k.symm)
              rw [hkv0v] at hmax
              have hts : t.score ≤ v.score := hmax.1
              constructor
              · omega
              · intro he
                omega
            · simp only [List.mem_singleton] at hts
              subst hts
              exact ⟨Nat.le_refl _, fun _ => Nat.le_refl _⟩
          · obtain ⟨hw, hgt, hmem, hmax⟩ := hkv kv hin
            refine ⟨hw, hgt, List.mem_append_left _ hmem, ?_⟩
            intro t ht hgt2 hwt
            rcases List.mem_append.mp ht with htd | hts
            · exact hmax t htd hgt2 hwt
            · simp only [List.mem_singleton] at hts
              subst hts
              exact absurd hwt.symm (Ne.symm (fun hc => hne hc.symm))
        · intro t ht hgt2
          rcases List.mem_append.mp ht with htd | hts
          · obtain ⟨kv2, hkv2m, hkv2k⟩ := hcomp t htd hgt2
            obtain ⟨kv3, hkv3m, hkv3k⟩ :=
              mapSet_key_surj m s.player_wallet s kv2 hkv2m
            exact ⟨kv3, hkv3m, hkv3k.trans hkv2k⟩
          · simp only [List.mem_singleton] at hts
            subst hts
            exact ⟨(t.player_wallet, t),
              mapSet_mem_replaced m t.player_wallet t kv0 hkv0m hkv0k, rfl⟩
      · have hms : hsStep G m s = m := by
          simp [hsStep, hg, hmg, hlt]
        rw [hms]
        refine ⟨hnd, ?_, ?_⟩
        · intro kv hkvm
          obtain ⟨hw, hgt, hmem, hmax⟩ := hkv kv hkvm
          refine ⟨hw, hgt, List.mem_append_left _ hmem, ?_⟩
          intro t ht hgt2 hwt
          rcases List.mem_append.mp ht with htd | hts
          · exact hmax t htd hgt2 hwt
          · simp only [List.mem_singleton] at hts
            subst hts
            by_cases hkk : kv.1 = t.player_wallet
            · have hkveq : kv = kv0 :=
                keys_nodup_key_inj m hnd kv kv0 hkvm hkv0m (hkk.trans hkv0k.symm)
              subst hkveq
              rw [hkv0v]
              constructor
              · omega
              · intro _
                exact hle v (hkv0v ▸ hmem0)
            · exact absurd hwt.symm hkk
        · intro t ht hgt2
          rcases List.mem_append.mp ht with htd | hts
          · exact hcomp t htd hgt2
          · simp only [List.mem_singleton] at hts
            subst hts
            exact ⟨kv0, hkv0m, hkv0k⟩
  · have hms : hsStep G m s = m := by
      simp [hsStep, hg]
    rw [hms]
    have hgs : s.game_type ≠ G := by simpa using hg
    refine ⟨hnd, ?_, ?_⟩
    · intro kv hkvm
      obtain ⟨hw, hgt, hmem, hmax⟩ := hkv kv hkvm
      refine ⟨hw, hgt, List.mem_append_left _ hmem, ?_⟩
      intro t ht hgt2 hwt
      rcases List.mem_append.mp ht with htd | hts
      · exact hmax t htd hgt2 hwt
      · simp only [List.mem_singleton] at hts
        subst hts
        exact absurd hgt2 hgs
    · intro t ht hgt2
      rcases List.mem_append.mp ht with htd | hts
      · exact hcomp t htd hgt2
      · simp only [List.mem_singleton] at hts
        subst hts
        exact absurd hgt2 hgs

lemma hsInv_foldl (G : String) :
    ∀ (l done : List Score) (m : List (String × Score)),
      HSInv G done m →
      List.Pairwise (fun a b => a.submitted_at ≤ b.submitted_at) (done ++ l) →
      HSInv G (done ++ l) (l.foldl (hsStep G) m) := by
  intro l
  induction l with
  | nil =>
    intro done m h _
    simpa using h
  | cons s rest ih =>
    intro done m hinv hpw
    have hle : ∀ x ∈ done, x.submitted_at ≤ s.submitted_at := by
      rw [List.pairwise_append] at hpw
      intro x hx
      exact hpw.2.2 x hx s (by simp)
    have h1 : HSInv G (done ++ [s]) (hsStep G m s) :=
      hsInv_step G done m s hinv hle
    have hpw2 : List.Pairwise (fun a b => a.submitted_at ≤ b.submitted_at)
        ((done ++ [s]) ++ rest) := by
      rw [List.append_assoc, List.singleton_append]
      exact hpw
    have h2 := ih (done ++ [s]) (hsStep G m s) h1 hpw2
    rw [List.append_assoc, List.singleton_append] at h2
    simpa using h2

lemma hsInv_bestScoresFold (G : String) (scores : List Score)
    (hpw : List.Pairwise (fun a b => a.submitted_at ≤ b.submitted_at) scores) :
    HSInv G scores (bestScoresFold G scores) := by
  have h := hsInv_foldl G scores [] []
    ⟨by simp, by simp, by simp⟩ (by simpa using hpw)
  simpa [bestScoresFold] using h


lemma enumFrom_map_snd {α β : Type} (g : α → β) :
    ∀ (n : Nat) (l : List α),
      (List.enumFrom n l).map (fun ip => g ip.2) = l.map g := by
  intro n l
  induction l generalizing n with
  | nil => rfl
  | cons a l ih => simp [List.enumFrom, ih]

lemma getGameHighScores_getElem (st : DbState) (G : String) (limit i : Nat)
    (h : i < (st.getGameHighScores G limit).length) :
    ∃ h2 : i < (st.hsSorted G).length,
      (st.getGameHighScores G limit)[i]
        = mkHsEntry st ((st.hsSorted G)[i]) (i + 1) := by
  have hl : i < (((st.hsSorted G).take limit).enum).length := by
    simpa [DbState.getGameHighScores] using h
  have ht : i < ((st.hsSorted G).take limit).length := by
    simpa [List.enum_length] using hl
  have h2 : i < (st.hsSorted G).length := by
    rw [List.length_take] at ht
    omega
  refine ⟨h2, ?_⟩
  show (((st.hsSorted G).take limit).enum.map
    (fun ip => mkHsEntry st ip.2 (ip.1 + 1)))[i] = _
  rw [List.getElem_map, List.getElem_enum, List.getElem_take]

lemma getGameHighScores_mem (st : DbState) (G : String) (limit : Nat)
    (e : HighScoreEntry) (he : e ∈ st.getGameHighScores G limit) :
    ∃ v ∈ (bestScoresFold G st.scores).map Prod.snd,
      e.player_wallet = v.player_wallet ∧ e.score = v.score ∧
      e.submitted_at = v.submitted_at := by
  obtain ⟨i, hi, hie⟩ := List.mem_iff_getElem.mp he
  obtain ⟨h2, heq⟩ := getGameHighScores_getElem st G limit i hi
  refine ⟨(st.hsSorted G)[i], ?_, ?_⟩
  · exact (List.mem_insertionSort scoreOrder).mp (List.getElem_mem h2)
  · rw [← hie, heq]
    exact ⟨rfl, rfl, rfl⟩

/-- C6: assuming the scores array is in submission order (timestamps
non-decreasing, as `createScore` appends with the current clock),
`gameHighScores(G, limit)` contains at most one entry per player wallet;
each entry's score is that player's maximum `rawScore` for `G`, realized
by an actual stored record; among that player's equal maximal scores the
kept record has the earliest `submittedAt`; and ranks are contiguous
`1..N` after deduplication. -/
theorem claim_C6 (st : DbState) (G : String) (limit : Nat)
    (hmono : List.Pairwise (fun a b => a.submitted_at ≤ b.submitted_at)
      st.scores) :
    ((st.getGameHighScores G limit).map (fun e => e.player_wallet)).Nodup ∧
    (∀ e ∈ st.getGameHighScores G limit,
      ∃ s0 ∈ st.scores, s0.game_type = G ∧
        s0.player_wallet = e.player_wallet ∧ s0.score = e.score ∧
        s0.submitted_at = e.submitted_at) ∧
    (∀ e ∈ st.getGameHighScores G limit, ∀ s ∈ st.scores,
      s.game_type = G → s.player_wallet = e.player_wallet →
      s.score ≤ e.score ∧
      (s.score = e.score → e.submitted_at ≤ s.submitted_at)) ∧
    (∀ i (h : i < (st.getGameHighScores G limit).length),
      ((st.getGameHighScores G limit)[i]).rank = i + 1) := by
  obtain ⟨hnd, hkv, hcomp⟩ := hsInv_bestScoresFold G st.scores hmono
  refine ⟨?_, ?_, ?_, ?_⟩
  · have hmapmap : (st.getGameHighScores G limit).map (fun e => e.player_wallet)
        = ((st.hsSorted G).take limit).map (fun s => s.player_wallet) := by
      unfold DbState.getGameHighScores
      rw [List.map_map, List.enum_eq_enumFrom]
      exact enumFrom_map_snd (fun s : Score => s.player_wallet) 0
        ((st.hsSorted G).take limit)
    have hvk : (((bestScoresFold G st.scores).map Prod.snd).map
          (fun s => s.player_wallet))
        = (bestScoresFold G st.scores).map Prod.fst := by
      rw [List.map_map]
      apply List.map_congr_left
      intro kv hkvm
      exact (hkv kv hkvm).1
    have hnd2 : (((bestScoresFold G st.scores).map Prod.snd).map
        (fun s => s.player_wallet)).Nodup := by
      rw [hvk]
      exact hnd
    have hperm : (st.hsSorted G).Perm
        ((bestScoresFold G st.scores).map Prod.snd) :=
      List.perm_insertionSort scoreOrder _
    have hnd3 : ((st.hsSorted G).map (fun s => s.player_wallet)).Nodup :=
      (List.Perm.nodup_iff (hperm.map _)).mpr hnd2
    have hnd4 : (((st.hsSorted G).take limit).map
        (fun s => s.player_wallet)).Nodup :=
      List.Sublist.nodup (List.Sublist.map _ (List.take_sublist limit _)) hnd3
    rw [hmapmap]
    exact hnd4
  · intro e he
    obtain ⟨v, hv, hw, hsc, hsub⟩ := getGameHighScores_mem st G limit e he
    obtain ⟨kv, hkvm, hkveq⟩ := List.mem_map.mp hv
    obtain ⟨hw1, hg1, hmem1, hmax1⟩ := hkv kv hkvm
    refine ⟨kv.2, hmem1, hg1, ?_, ?_, ?_⟩
    · rw [hkveq, ← hw]
    · rw [hkveq, ← hsc]
    · rw [hkveq, ← hsub]
  · intro e he s hs hgt hwt
    obtain ⟨v, hv, hw, hsc, hsub⟩ := getGameHighScores_mem st G limit e he
    obtain ⟨kv, hkvm, hkveq⟩ := List.mem_map.mp hv
    obtain ⟨hw1, hg1, hmem1, hmax1⟩ := hkv kv hkvm
    have hwk : s.player_wallet = kv.1 := by
      rw [hwt, hw, ← hkveq, hw1]
    have hmax := hmax1 s hs hgt hwk
    rw [hkveq] at hmax
    constructor
    · rw [hsc]
      exact hmax.1
    · intro hse
      rw [hsub]
      exact hmax.2 (by rw [← hsc]; exact hse)
  · intro i h
    obtain ⟨h2, heq⟩ := getGameHighScores_getElem st G limit i h
    rw [heq]
    rfl

/-- Witness for C6: `alice` submits 10, 50, 30 for `SPEED_CLICKER`; the
high-score board has the single entry with score 50 (the `submittedAt`
of the 50-submission), rank 1. -/
theorem claim_C6_witness :
    List.Pairwise (fun a b => a.submitted_at ≤ b.submitted_at) stHs.scores ∧
    ((stHs.getGameHighScores "SPEED_CLICKER" 10).map
      (fun e => e.player_wallet)).Nodup ∧
    stHs.getGameHighScores "SPEED_CLICKER" 10
      = [{ player_wallet := "0xa1ce000001", username := "alice", score := 50,
           xp_earned := 10, rank := 1, submitted_at := 2 }] :=
  ⟨by decide,
   (claim_C6 stHs "SPEED_CLICKER" 10 (by decide)).1,
   by decide⟩

/-- C4 is a code bug in the PostgreSQL player repository: registering the
same wallet twice leaves one player row (username updated, counters and
XP untouched) but bumps the `total_players` stat to 2, because the
`UPDATE stats` statement runs unconditionally after the
`ON CONFLICT ... DO UPDATE` upsert. The in-memory implementation of the
same operation increments the counter only on first creation. -/
theorem claim_C4_pg_bug :
    pgAfterTwo.total_players = 2 ∧
    pgAfterTwo.players.length = 1 ∧
    pgAfterTwo.players.map (fun p => (p.username, p.total_xp, p.games_played))
      = [("alicetwo", 0, 0)] ∧
    ((DbState.init.createPlayer ⟨"0xA1CE000001", "alice", none⟩ 0).2.createPlayer
      ⟨"0xA1CE000001", "alicetwo", none⟩ 1).2.total_players = 1 := by
  refine ⟨by decide, by decide, by decide, by decide⟩

end Arcade
